import Mathlib

/-!
Verification development for the audit-trail change-tracking engine
(`audit_trail/watcher.py`): a shallow embedding of `AuditTrailWatcher`
and the lifecycle hooks it connects to Django signals, together with
theorems about the change-detection, gating and cascade behaviour.

Modelling conventions:
* Python values flowing through snapshots are `Value` (int or string);
  a Python `None` is the `none` of `Option Value`.
* A snapshot (the dict built by `serialize_object`) is an association
  list `List (String × Option Value)`; a missing key reads as `none`,
  exactly like `dict.get(k, None)`.
* Python exceptions are the `Except.error` case; a hook that raises
  propagates the error, and the records persisted before the raise are
  still reported (see `HookOut`).
* The host/Django collaborator (field metadata, FK dereferencing, the
  global disable flag, the id-based re-query used after a delete) is an
  explicit environment `Env`.
-/

/-- A Python value stored in a snapshot: an int or a (unicode) string. -/
inductive Value where
  | vint (n : Int)
  | vstr (s : String)
deriving DecidableEq, BEq, Repr

/-- `unicode(value)` / `str(value)` for the values we model. -/
def Value.render : Value → String
  | .vint n => toString n
  | .vstr s => s

/-- Python `int(value)`: identity on ints, parse for strings, raising
`ValueError` when the string is not an integer literal. -/
def pyInt : Value → Except String Int
  | .vint n => .ok n
  | .vstr s =>
    match s.toInt? with
    | some n => .ok n
    | none => .error "ValueError"

/-- One declared model field (`model._meta.fields` entry): its name,
whether it is a `ForeignKey`, and its `choices` (empty list = no
choices, matching Python truthiness of `field.choices`). -/
structure ModelField where
  name : String
  is_fk : Bool
  choices : List (Value × String)
deriving DecidableEq, BEq, Repr

/-- The watcher object (`AuditTrailWatcher.__init__` fields plus
`model_class`, which `contribute_to_class` fills in).  Model classes
are identified by a `Nat`; their field metadata lives in `Env`. -/
structure AuditTrailWatcher where
  fields : Option (List String)
  track_related : Option (List String)
  notify_related : Option (List String)
  track_only_with_related : Bool
  excluded_fields : List String
  model_class : Option Nat
deriving DecidableEq, BEq, Repr

/-- `AuditTrailWatcher.__init__`: `excluded_fields` always starts with
`'id'`; a falsy (`None` or empty) `excluded_fields` argument adds
nothing. -/
def AuditTrailWatcher.init (fields track_related notify_related : Option (List String))
    (track_only_with_related : Bool) (excluded_fields : Option (List String)) :
    AuditTrailWatcher :=
  { fields := fields
    track_related := track_related
    notify_related := notify_related
    track_only_with_related := track_only_with_related
    excluded_fields := "id" :: excluded_fields.getD []
    model_class := none }

/-- The value `getattr(instance, relation_name)` yields for a relation
attribute: `None`, a single model object (it has `_meta`), or a
`RelatedManager` whose `.all()` currently enumerates the given member
ids. -/
inductive RelValue where
  | null
  | obj (id : Int)
  | manager (ids : List Int)
deriving DecidableEq, BEq, Repr

/-- An in-memory model instance, with the per-instance transient state
the watcher attaches to it (`_original_values`,
`_audit_ids_to_notify_related_deletion`). -/
structure Instance where
  cls : Nat
  myId : Int
  fieldValue : String → Option Value
  relAttr : String → RelValue
  origValues : List (String × Option Value)
  severedIds : Option (List (String × List Int))

/-- The external collaborators (Django / settings / database). -/
structure Env where
  /-- `settings.DISABLE_AUDIT_TRAIL`. -/
  disabled : Bool
  /-- `model._meta.fields` for each model class. -/
  metaFields : Nat → List ModelField
  /-- Dereference a foreign key: given the FK field name and the stored
  id, the `unicode()` rendering of the referenced object, or `none` if
  the referenced row no longer exists (`DoesNotExist`). -/
  fkLookup : String → Int → Option String
  /-- Which entity ids still resolve when re-queried by id
  (`filter(id__in=ids)`) after a delete. -/
  db : Int → Bool

/-- A snapshot: the dict produced by `serialize_object`. -/
abbrev Snapshot := List (String × Option Value)

/-- `d.get(field_name, None)` on a snapshot dict. -/
def sget (s : Snapshot) (n : String) : Option Value :=
  (s.lookup n).getD none

/-- `AuditTrailWatcher.serialize_object`: stringified values for
tracked fields — every instance meta field except untracked ones
(`self.fields is not None and name not in self.fields`) and excluded
ones. -/
def serialize_object (w : AuditTrailWatcher) (env : Env) (inst : Instance) : Snapshot :=
  (env.metaFields inst.cls).filterMap fun fd =>
    if (match w.fields with
        | some fs => decide (fd.name ∉ fs)
        | none => false)
       || w.excluded_fields.contains fd.name then
      none
    else
      some (fd.name, inst.fieldValue fd.name)

/-- `AuditTrailWatcher.get_fk_value`: `None` stays `None`; otherwise
`int(value)` then a transient-instance attribute access that hits the
database — `DoesNotExist` when the referenced row is gone — and the
`'[#%d] %s'` rendering. -/
def get_fk_value (env : Env) (field_name : String) (value : Option Value) :
    Except String (Option Value) :=
  match value with
  | none => .ok none
  | some v =>
    match pyInt v with
    | .error e => .error e
    | .ok n =>
      match env.fkLookup field_name n with
      | none => .error "DoesNotExist"
      | some disp => .ok (some (.vstr ("[#" ++ toString n ++ "] " ++ disp)))

/-- `AuditTrailWatcher.get_choice_value`: `None` stays `None`;
otherwise `'[#%s] %s'` of the raw value and its display label.  The
label comes from the field's `choices` (Django's `get_FOO_display`,
falling back to the raw value when it is not among the choices). -/
def get_choice_value (choices : List (Value × String)) (value : Option Value) :
    Option Value :=
  match value with
  | none => none
  | some v =>
    some (.vstr ("[#" ++ v.render ++ "] " ++ ((choices.lookup v).getD v.render)))

/-- One `{old_value, new_value}` entry of the changes dict. -/
structure Change where
  old_value : Option Value
  new_value : Option Value
deriving DecidableEq, BEq, Repr

/-- `self.model_class._meta.get_field(field_name)`. -/
def get_field (env : Env) (m : Nat) (n : String) : Option ModelField :=
  (env.metaFields m).find? fun fd => fd.name == n

/-- The body of the `get_changes` loop for one field name: look the
field up in the model meta (raising `FieldDoesNotExist` for an unknown
name), apply FK rendering if it is a `ForeignKey`, then choice
rendering if it has choices. -/
def renderField (env : Env) (m : Nat) (field_name : String) (value : Option Value) :
    Except String (Option Value) :=
  match get_field env m field_name with
  | none => .error "FieldDoesNotExist"
  | some fd =>
    match (if fd.is_fk then get_fk_value env field_name value else .ok value) with
    | .error e => .error e
    | .ok v1 => .ok (if fd.choices.isEmpty then v1 else get_choice_value fd.choices v1)

/-- The `get_changes` loop over a list of field names, building the
changes dict in field order. -/
def get_changes_loop (env : Env) (m : Nat) (old_values new_values : Snapshot) :
    List String → Except String (List (String × Change))
  | [] => .ok []
  | f :: rest =>
    match renderField env m f (sget old_values f) with
    | .error e => .error e
    | .ok ov =>
      match renderField env m f (sget new_values f) with
      | .error e => .error e
      | .ok nv =>
        match get_changes_loop env m old_values new_values rest with
        | .error e => .error e
        | .ok tail =>
          .ok (if ov ≠ nv then (f, ⟨ov, nv⟩) :: tail else tail)

/-- The field list `get_changes` iterates: `self.fields or
[f.name for f in self.model_class._meta.fields]` (Python truthiness:
an empty `fields` list also falls back to the meta list). -/
def effective_fields (w : AuditTrailWatcher) (env : Env) (m : Nat) : List String :=
  match w.fields with
  | some fs => if fs.isEmpty then (env.metaFields m).map ModelField.name else fs
  | none => (env.metaFields m).map ModelField.name

/-- `AuditTrailWatcher.get_changes`: returns the dict of changed
fields; raises `AttributeError` if `model_class` was never set. -/
def get_changes (w : AuditTrailWatcher) (env : Env) (old_values new_values : Snapshot) :
    Except String (List (String × Change)) :=
  match w.model_class with
  | none => .error "AttributeError"
  | some m => get_changes_loop env m old_values new_values (effective_fields w env m)

/-- The event kinds of a persisted audit-trail record. -/
inductive EventKind where
  | created
  | updated
  | deleted
  | related_change
deriving DecidableEq, BEq, Repr

/-- Modelled from the spec: the `AuditTrail` model and its manager
(`generate_trail_for_instance_created` / `_updated` / `_deleted` /
`_related_change`) live in `audit_trail/models.py`, which is not part
of the given source.  Per the spec, a HistoryRecord carries a subject
entity ref, the event kind, the ChangeSet, and an optional reference to
the triggering record; `related_index` is that reference, given as the
index of the triggering record in the batch of records a single hook
call persists (the triggering record is always index `0`). -/
structure TrailRecord where
  kind : EventKind
  subject_id : Int
  changes : List (String × Change)
  related_index : Option Nat
deriving DecidableEq, BEq, Repr

/-- Outcome of one lifecycle hook call: the records it persisted (in
order) and either the updated instance or the Python exception the
hook raised (records persisted before the raise are kept). -/
structure HookOut where
  records : List TrailRecord
  result : Except String Instance

/-- `AuditTrailWatcher.on_post_init`: stores original field values.
Note: this hook does not consult `settings.DISABLE_AUDIT_TRAIL`. -/
def on_post_init (w : AuditTrailWatcher) (env : Env) (inst : Instance) : Instance :=
  { inst with origValues := serialize_object w env inst }

/-- The `for field_name in self.notify_related` loop of
`is_parent_object_exists`. -/
def parent_exists_loop (inst : Instance) : List String → Bool
  | [] => false
  | f :: rest =>
    match inst.relAttr f with
    | .null => parent_exists_loop inst rest
    | .obj _ => true
    | .manager ids =>
      if !ids.isEmpty then true
      else if ((inst.severedIds.getD []).lookup f).isSome then true
      else parent_exists_loop inst rest

/-- `AuditTrailWatcher.is_parent_object_exists`: iterating
`self.notify_related` raises `TypeError` when it is `None`. -/
def is_parent_object_exists (w : AuditTrailWatcher) (inst : Instance) :
    Except String Bool :=
  match w.notify_related with
  | none => .error "TypeError"
  | some l => .ok (parent_exists_loop inst l)

/-- `AuditTrailWatcher.create_related_audit_trail`: one RelatedChange
record per currently related object of each notify relation, each with
`related_trail` pointing at the triggering record (batch index 0). -/
def create_related_audit_trail (w : AuditTrailWatcher) (inst : Instance) :
    List TrailRecord :=
  (w.notify_related.getD []).flatMap fun f =>
    match inst.relAttr f with
    | .null => []
    | .obj i => [⟨.related_change, i, [], some 0⟩]
    | .manager ids => ids.map fun i => ⟨.related_change, i, [], some 0⟩

/-- The un-gated tail of `on_post_save_create`: generate the Created
trail, compute `get_changes({}, serialize_object(instance))`, persist,
refresh `_original_values`, cascade. -/
def on_post_save_create_body (w : AuditTrailWatcher) (env : Env) (inst : Instance) :
    HookOut :=
  match get_changes w env [] (serialize_object w env inst) with
  | .error e => ⟨[], .error e⟩
  | .ok changes =>
    ⟨⟨.created, inst.myId, changes, none⟩ :: create_related_audit_trail w inst,
     .ok { inst with origValues := serialize_object w env inst }⟩

/-- `AuditTrailWatcher.on_post_save_create`. -/
def on_post_save_create (w : AuditTrailWatcher) (env : Env) (inst : Instance)
    (created : Bool) : HookOut :=
  if env.disabled then ⟨[], .ok inst⟩
  else if !created then ⟨[], .ok inst⟩
  else if w.track_only_with_related then
    match is_parent_object_exists w inst with
    | .error e => ⟨[], .error e⟩
    | .ok true => on_post_save_create_body w env inst
    | .ok false => ⟨[], .ok inst⟩
  else on_post_save_create_body w env inst

/-- The un-gated tail of `on_post_save_update`: diff
`_original_values` against the fresh serialization; return without
persisting anything when the diff is empty, otherwise persist the
Updated trail, refresh `_original_values`, cascade. -/
def on_post_save_update_body (w : AuditTrailWatcher) (env : Env) (inst : Instance) :
    HookOut :=
  match get_changes w env inst.origValues (serialize_object w env inst) with
  | .error e => ⟨[], .error e⟩
  | .ok changes =>
    if changes.isEmpty then ⟨[], .ok inst⟩
    else
      ⟨⟨.updated, inst.myId, changes, none⟩ :: create_related_audit_trail w inst,
       .ok { inst with origValues := serialize_object w env inst }⟩

/-- `AuditTrailWatcher.on_post_save_update`. -/
def on_post_save_update (w : AuditTrailWatcher) (env : Env) (inst : Instance)
    (created : Bool) : HookOut :=
  if env.disabled then ⟨[], .ok inst⟩
  else if created then ⟨[], .ok inst⟩
  else if w.track_only_with_related then
    match is_parent_object_exists w inst with
    | .error e => ⟨[], .error e⟩
    | .ok true => on_post_save_update_body w env inst
    | .ok false => ⟨[], .ok inst⟩
  else on_post_save_update_body w env inst

/-- The capture loop of `on_pre_delete`: for each notify relation that
is a collection accessor (`RelatedManager`, no `_meta`) and currently
non-empty, record its member ids. -/
def capture_severed (inst : Instance) : List String → List (String × List Int)
  | [] => []
  | f :: rest =>
    match inst.relAttr f with
    | .null => capture_severed inst rest
    | .obj _ => capture_severed inst rest
    | .manager ids =>
      if ids.isEmpty then capture_severed inst rest
      else (f, ids) :: capture_severed inst rest

/-- `AuditTrailWatcher.on_pre_delete`: if the policy has notify
relations, set `_audit_ids_to_notify_related_deletion` to the severed
capture (an empty dict when nothing qualifies). -/
def on_pre_delete (w : AuditTrailWatcher) (env : Env) (inst : Instance) : HookOut :=
  if env.disabled then ⟨[], .ok inst⟩
  else
    match w.notify_related with
    | none => ⟨[], .ok inst⟩
    | some l =>
      if l.isEmpty then ⟨[], .ok inst⟩
      else ⟨[], .ok { inst with severedIds := some (capture_severed inst l) }⟩

/-- The loop of `create_deleted_related_audit_trail`: direct references
are notified as loaded; for a collection accessor the ids stored by
`on_pre_delete` are re-queried by `id__in` (reading
`_audit_ids_to_notify_related_deletion` raises `AttributeError` when
`on_pre_delete` never set it). -/
def deleted_cascade_one (env : Env) (inst : Instance) (f : String) :
    Except String (List TrailRecord) :=
  match inst.relAttr f with
  | .null => .ok []
  | .obj i => .ok [⟨.related_change, i, [], some 0⟩]
  | .manager _ =>
    match inst.severedIds with
    | none => .error "AttributeError"
    | some m =>
      match m.lookup f with
      | none => .ok []
      | some ids =>
        if ids.isEmpty then .ok []
        else .ok ((ids.filter fun i => env.db i).map
          fun i => ⟨.related_change, i, [], some 0⟩)

/-- The iteration of `create_deleted_related_audit_trail` over the
notify relations, accumulating the persisted records; an exception
stops the loop but keeps the records persisted so far. -/
def deleted_cascade_loop (env : Env) (inst : Instance) :
    List String → List TrailRecord × Option String
  | [] => ([], none)
  | f :: rest =>
    match deleted_cascade_one env inst f with
    | .error e => ([], some e)
    | .ok here =>
      match deleted_cascade_loop env inst rest with
      | (tail, exc) => (here ++ tail, exc)

/-- `AuditTrailWatcher.create_deleted_related_audit_trail`: the records
it persists, and the exception it raises if any (records persisted
before the raise are kept). -/
def create_deleted_related_audit_trail (w : AuditTrailWatcher) (env : Env)
    (inst : Instance) : List TrailRecord × Option String :=
  match w.notify_related with
  | none => ([], none)
  | some l => if l.isEmpty then ([], none) else deleted_cascade_loop env inst l

/-- The un-gated tail of `on_post_delete`: diff the serialization
against `{}`, persist the Deleted trail unconditionally, then cascade
through the severed map (a cascade exception propagates but the
Deleted record is already persisted). -/
def on_post_delete_body (w : AuditTrailWatcher) (env : Env) (inst : Instance) :
    HookOut :=
  match get_changes w env (serialize_object w env inst) [] with
  | .error e => ⟨[], .error e⟩
  | .ok changes =>
    match create_deleted_related_audit_trail w env inst with
    | (casc, some e) => ⟨⟨.deleted, inst.myId, changes, none⟩ :: casc, .error e⟩
    | (casc, none) => ⟨⟨.deleted, inst.myId, changes, none⟩ :: casc, .ok inst⟩

/-- `AuditTrailWatcher.on_post_delete`. -/
def on_post_delete (w : AuditTrailWatcher) (env : Env) (inst : Instance) : HookOut :=
  if env.disabled then ⟨[], .ok inst⟩
  else if w.track_only_with_related then
    match is_parent_object_exists w inst with
    | .error e => ⟨[], .error e⟩
    | .ok true => on_post_delete_body w env inst
    | .ok false => ⟨[], .ok inst⟩
  else on_post_delete_body w env inst

/-- The process-wide registration state: `AuditTrailWatcher.tracked_models`
(the class-level set), the `audit` attribute attached to each model
class, and which model classes have had `init_signals` run (their
lifecycle handlers connected). -/
structure RegState where
  tracked_models : List Nat
  audits : List (Nat × AuditTrailWatcher)
  wired : List Nat
deriving DecidableEq, BEq, Repr

/-- `AuditTrailWatcher.contribute_to_class`: a no-op returning `False`
when the class is already tracked; otherwise set `model_class`, add the
class to `tracked_models`, attach the watcher as the class's `audit`
attribute, and return `True`. -/
def contribute_to_class (w : AuditTrailWatcher) (cls : Nat) (st : RegState) :
    Bool × RegState :=
  if st.tracked_models.contains cls then (false, st)
  else
    (true,
     { st with
       tracked_models := cls :: st.tracked_models
       audits := (cls, { w with model_class := some cls }) :: st.audits })

/-- What `getattr(self.model_class, attr_name)` yields for a configured
`track_related` name: a reverse relation descriptor (it has `.related`,
carrying the related model and the explicit back-reference field name)
or a forward FK descriptor (carrying the related model and
`related_query_name()`). -/
inductive RelDescr where
  | reverseRel (related_model : Nat) (field_name : String)
  | fkDescr (related_model : Nat) (query_name : String)
deriving DecidableEq, BEq, Repr

/-- The static model-introspection collaborator used by
`init_related_signals`: relation attributes of each model class, and
`hasattr(model, name)` for statically declared attributes (the
dynamically attached `audit` attribute is tracked in `RegState.audits`
instead). -/
structure RegEnv where
  attrOf : Nat → String → Option RelDescr
  hasattrM : Nat → String → Bool

/-- Point-update of the `audit` attribute of one model class. -/
def set_audit (cls : Nat) (w : AuditTrailWatcher)
    (l : List (Nat × AuditTrailWatcher)) : List (Nat × AuditTrailWatcher) :=
  l.map fun p => if p.1 == cls then (p.1, w) else p

/-- One iteration of the `init_related_signals` loop: resolve the
relation attribute (raising `AttributeError` when the name does not
exist on the model), infer the back-reference field name (forward FK:
`related_query_name()`, with `'_set'` appended when the related model
has no attribute of that name), auto-register a shadow watcher
(`track_only_with_related=True`, all other arguments defaulted) with
its signals wired when the related model has no `audit` yet, and
append the back-reference name to the related watcher's
`notify_related` (`... or []` then `+= [name]`).  The shadow watcher's
own `init_related_signals` pass is a no-op since its `track_related`
is `None`. -/
def init_related_one (e : RegEnv) (mc : Nat) (st : RegState) (attr_name : String) :
    Except String RegState :=
  match e.attrOf mc attr_name with
  | none => .error "AttributeError"
  | some d =>
    let rm := match d with
      | .reverseRel m _ => m
      | .fkDescr m _ => m
    let rf := match d with
      | .reverseRel _ fname => fname
      | .fkDescr _ qn => if e.hasattrM rm qn then qn else qn ++ "_set"
    let st1 :=
      if (st.audits.lookup rm).isSome then st
      else
        let sw := AuditTrailWatcher.init none none none true none
        let p := contribute_to_class sw rm st
        { p.2 with wired := rm :: p.2.wired }
    match st1.audits.lookup rm with
    | none => .error "AttributeError"
    | some aw =>
      .ok { st1 with
            audits := set_audit rm
              { aw with notify_related := some (aw.notify_related.getD [] ++ [rf]) }
              st1.audits }

/-- `AuditTrailWatcher.init_related_signals`: nothing to do for a falsy
`track_related`; otherwise process each configured relation name in
order (`getattr(self.model_class, ...)` needs `model_class` set). -/
def init_related_signals (w : AuditTrailWatcher) (e : RegEnv) (st : RegState) :
    Except String RegState :=
  match w.track_related with
  | none => .ok st
  | some l =>
    if l.isEmpty then .ok st
    else
      match w.model_class with
      | none => .error "AttributeError"
      | some mc => l.foldlM (fun s a => init_related_one e mc s a) st

/-! ## Shared fixtures and helper lemmas -/

/-- A small model meta: an id, a plain `title`, an enumerated `status`
and a foreign key `author`. -/
def metaPost : List ModelField :=
  [⟨"id", false, []⟩,
   ⟨"title", false, []⟩,
   ⟨"status", false, [(.vint 1, "draft"), (.vint 2, "published")]⟩,
   ⟨"author", true, []⟩]

/-- A model meta without reference-typed or enumerated fields. -/
def metaPlain : List ModelField :=
  [⟨"id", false, []⟩, ⟨"title", false, []⟩]

/-- A base instance fixture. -/
def instBase : Instance :=
  { cls := 0
    myId := 10
    fieldValue := fun s => if s == "title" then some (.vstr "Hi") else none
    relAttr := fun _ => .null
    origValues := []
    severedIds := none }

/-- The claim vocabulary for "a parent exists at notify relation `f`":
the relation resolves to a non-null single entity, or to a non-empty
related collection, or has a non-empty severed-ids capture. -/
def ParentAt (inst : Instance) (f : String) : Prop :=
  (∃ i, inst.relAttr f = .obj i) ∨
  (∃ ids, ids ≠ [] ∧ inst.relAttr f = .manager ids) ∨
  ((inst.severedIds.getD []).lookup f).isSome = true

/-- If no configured relation has a parent (in the claim's sense), the
`is_parent_object_exists` loop returns `False`. -/
theorem no_parent_loop_false (inst : Instance) (l : List String)
    (h : ∀ f ∈ l, ¬ ParentAt inst f) : parent_exists_loop inst l = false := by
  induction l with
  | nil => rfl
  | cons f rest ih =>
    have hf := h f (List.mem_cons_self f rest)
    have hrest : ∀ g ∈ rest, ¬ ParentAt inst g := fun g hg => h g (List.mem_cons_of_mem f hg)
    unfold parent_exists_loop
    cases hrel : inst.relAttr f with
    | null => exact ih hrest
    | obj i => exact absurd (Or.inl ⟨i, hrel⟩) hf
    | manager ids =>
      cases hids : ids.isEmpty with
      | false =>
        exact absurd (Or.inr (Or.inl ⟨ids, by simpa using hids, hrel⟩)) hf
      | true =>
        have hsev : ((inst.severedIds.getD []).lookup f).isSome = false := by
          cases hs : ((inst.severedIds.getD []).lookup f).isSome with
          | false => rfl
          | true => exact absurd (Or.inr (Or.inr hs)) hf
        simp [hids, hsev]
        exact ih hrest

/-! ## Claim C7 -/

/-- Claim C7: registering the same entity type a second time returns
`False` and is a no-op — the tracked-type set and the policy attached
by the first registration are unchanged — while the first registration
of a type returns `True`. -/
theorem C7_registration_idempotent (w : AuditTrailWatcher) (cls : Nat) (st : RegState) :
    (cls ∈ st.tracked_models → contribute_to_class w cls st = (false, st)) ∧
    (cls ∉ st.tracked_models → (contribute_to_class w cls st).1 = true) := by
  constructor <;> intro h <;> simp [contribute_to_class, h]

/-- A registry fixture where model `1` is already tracked. -/
def wC7 : AuditTrailWatcher := AuditTrailWatcher.init none none none false none

/-- A registry state with model `1` registered. -/
def stC7 : RegState :=
  { tracked_models := [1], audits := [(1, { wC7 with model_class := some 1 })], wired := [1] }

theorem C7_registration_idempotent_witness :
    (contribute_to_class wC7 1 stC7 = (false, stC7)) ∧
    (contribute_to_class wC7 2 stC7).1 = true :=
  ⟨(C7_registration_idempotent wC7 1 stC7).1 (by decide),
   (C7_registration_idempotent wC7 2 stC7).2 (by decide)⟩

/-! ## Claim C8 -/

/-- An environment with auditing disabled. -/
def envC8 : Env :=
  { disabled := true
    metaFields := fun _ => metaPlain
    fkLookup := fun _ _ => none
    db := fun _ => true }

/-- A watcher over `metaPlain` tracking all fields. -/
def wC8 : AuditTrailWatcher :=
  { AuditTrailWatcher.init none none none false none with model_class := some 0 }

/-- Counterexample to claim C8 as stated: with the process-wide disable
switch set, the instance-init entry point still updates the stored
before-snapshot (`on_post_init` never consults the switch). -/
theorem C8_counterexample :
    envC8.disabled = true ∧
    (on_post_init wC8 envC8 instBase).origValues ≠ instBase.origValues := by
  exact ⟨rfl, by decide⟩

/-- Claim C8 (amended): with the disable switch set, the four mutation
entry points (post-create, post-update, pre-delete, post-delete) are
skipped entirely — no record persisted, no cascade, no before-snapshot
refresh — but the instance-init snapshot capture is not gated. -/
theorem C8_disabled_skips_mutation_hooks (w : AuditTrailWatcher) (env : Env)
    (inst : Instance) (c : Bool) (h : env.disabled = true) :
    on_post_save_create w env inst c = ⟨[], .ok inst⟩ ∧
    on_post_save_update w env inst c = ⟨[], .ok inst⟩ ∧
    on_pre_delete w env inst = ⟨[], .ok inst⟩ ∧
    on_post_delete w env inst = ⟨[], .ok inst⟩ := by
  refine ⟨?_, ?_, ?_, ?_⟩ <;>
    simp [on_post_save_create, on_post_save_update, on_pre_delete, on_post_delete, h]

theorem C8_disabled_skips_mutation_hooks_witness :
    on_post_save_create wC8 envC8 instBase true = ⟨[], .ok instBase⟩ ∧
    on_post_save_update wC8 envC8 instBase false = ⟨[], .ok instBase⟩ ∧
    on_pre_delete wC8 envC8 instBase = ⟨[], .ok instBase⟩ ∧
    on_post_delete wC8 envC8 instBase = ⟨[], .ok instBase⟩ :=
  C8_disabled_skips_mutation_hooks wC8 envC8 instBase true rfl

/-! ## Claim C1 -/

/-- An environment in which no foreign-key target resolves (every
referenced row has been deleted). -/
def envC1 : Env :=
  { disabled := false
    metaFields := fun _ => metaPost
    fkLookup := fun _ _ => none
    db := fun _ => true }

/-- A watcher over `metaPost` tracking all fields. -/
def wC1 : AuditTrailWatcher :=
  { AuditTrailWatcher.init none none none false none with model_class := some 0 }

/-- An old snapshot holding a dangling reference (`author = 7`). -/
def oldC1 : Snapshot := [("title", some (.vstr "a")), ("author", some (.vint 7))]

/-- A new snapshot with the same dangling reference and a changed
`title`. -/
def newC1 : Snapshot := [("title", some (.vstr "b")), ("author", some (.vint 7))]

/-- Claim C1 fails on the code: diffing snapshots whose `author`
foreign key points at a deleted row raises `DoesNotExist` (from the
attribute access in `get_fk_value`, which has no handler), aborting the
whole diff — the changed `title` field produces no output and the
exception propagates to the caller, instead of the field degrading to
a placeholder. -/
theorem C1_dangling_fk_raises :
    envC1.fkLookup "author" 7 = none ∧
    sget oldC1 "title" ≠ sget newC1 "title" ∧
    get_changes wC1 envC1 oldC1 newC1 = .error "DoesNotExist" :=
  ⟨rfl, by decide, rfl⟩

/-! ## Claim C2 -/

/-- Claim C2: on a creation event under a `track_only_with_related`
policy, when no configured notify relation has a parent (in the
claim's sense: non-null single entity, non-empty collection, or
non-empty severed capture), nothing is persisted and no cascade is
emitted; with the notify-relation list configured the hook returns
normally with the instance untouched, and even with it unset (where
the parent check raises) zero records are persisted. -/
theorem C2_no_parent_creation_persists_nothing (w : AuditTrailWatcher) (env : Env)
    (inst : Instance) (l : List String)
    (htrack : w.track_only_with_related = true)
    (hno : ∀ f ∈ l, ¬ ParentAt inst f) :
    (w.notify_related = some l →
       on_post_save_create w env inst true = ⟨[], .ok inst⟩) ∧
    (w.notify_related = none →
       (on_post_save_create w env inst true).records = []) := by
  constructor <;> intro hnr
  · cases hdis : env.disabled with
    | true => simp [on_post_save_create, hdis]
    | false =>
      simp [on_post_save_create, hdis, htrack, is_parent_object_exists, hnr,
        no_parent_loop_false inst l hno]
  · cases hdis : env.disabled with
    | true => simp [on_post_save_create, hdis]
    | false =>
      simp [on_post_save_create, hdis, htrack, is_parent_object_exists, hnr]

/-- A `track_only_with_related` watcher whose notify relation is
`post`. -/
def wC2 : AuditTrailWatcher :=
  { AuditTrailWatcher.init none none (some ["post"]) true none with model_class := some 0 }

/-- An enabled environment over `metaPlain`. -/
def envC2 : Env :=
  { disabled := false
    metaFields := fun _ => metaPlain
    fkLookup := fun _ _ => none
    db := fun _ => true }

theorem C2_no_parent_creation_persists_nothing_witness :
    on_post_save_create wC2 envC2 instBase true = ⟨[], .ok instBase⟩ :=
  (C2_no_parent_creation_persists_nothing wC2 envC2 instBase ["post"] rfl
    (by
      intro f hf
      rintro (⟨i, hi⟩ | ⟨ids, hne, hi⟩ | hs)
      · simp [instBase] at hi
      · simp [instBase] at hi
      · simp [instBase] at hs)).1 rfl

/-! ## Claim C9 -/

/-- A `track_only_with_related` policy with no notify relations
configured (`notify_related` left as `None`). -/
def wC9 : AuditTrailWatcher :=
  { AuditTrailWatcher.init none none none true none with model_class := some 0 }

/-- Claim C9 fails on the code: under a `track_only_with_related`
policy with `notify_related` unset, a creation event — a pure
"nothing to do" situation (no notify relation is configured, so no
parent exists) — makes the post-save hook raise `TypeError` from
iterating `None` in `is_parent_object_exists`, instead of returning
normally. -/
theorem C9_counterexample :
    wC9.track_only_with_related = true ∧
    wC9.notify_related = none ∧
    (on_post_save_create wC9 envC2 instBase true).result = .error "TypeError" :=
  ⟨rfl, rfl, rfl⟩

/-- Claim C9 (amended): no lifecycle hook throws for a "nothing to do"
condition — auditing disabled, no parent present, or an empty diff —
provided the policy's `notify_related` is an actual list; when
`notify_related` is unset (`None`) under a `track_only_with_related`
policy the parent check raises `TypeError`.  The pre-delete hook never
throws when there is nothing to capture. -/
theorem C9_nothing_to_do_returns_normally (w : AuditTrailWatcher) (env : Env)
    (inst : Instance) (l : List String) :
    (env.disabled = true →
       (on_post_save_create w env inst true).result = .ok inst ∧
       (on_post_save_update w env inst false).result = .ok inst ∧
       (on_pre_delete w env inst).result = .ok inst ∧
       (on_post_delete w env inst).result = .ok inst) ∧
    (env.disabled = false → w.track_only_with_related = true →
       w.notify_related = some l → parent_exists_loop inst l = false →
       on_post_save_create w env inst true = ⟨[], .ok inst⟩ ∧
       on_post_save_update w env inst false = ⟨[], .ok inst⟩ ∧
       on_post_delete w env inst = ⟨[], .ok inst⟩) ∧
    ((w.track_only_with_related = true → is_parent_object_exists w inst = .ok true) →
       get_changes w env inst.origValues (serialize_object w env inst) = .ok [] →
       on_post_save_update w env inst false = ⟨[], .ok inst⟩) ∧
    (w.notify_related = none ∨ w.notify_related = some [] →
       (on_pre_delete w env inst).result = .ok inst) := by
  refine ⟨?_, ?_, ?_, ?_⟩
  · intro hdis
    simp [on_post_save_create, on_post_save_update, on_pre_delete, on_post_delete, hdis]
  · intro hdis htrack hnr hloop
    simp [on_post_save_create, on_post_save_update, on_post_delete, hdis, htrack,
      is_parent_object_exists, hnr, hloop]
  · intro hpar hch
    cases hdis : env.disabled with
    | true => simp [on_post_save_update, hdis]
    | false =>
      cases htrack : w.track_only_with_related with
      | false =>
        simp [on_post_save_update, hdis, htrack, on_post_save_update_body, hch]
      | true =>
        simp [on_post_save_update, hdis, htrack, hpar htrack,
          on_post_save_update_body, hch]
  · intro hnr
    cases hdis : env.disabled with
    | true => simp [on_pre_delete, hdis]
    | false =>
      rcases hnr with h | h <;> simp [on_pre_delete, hdis, h]

theorem C9_nothing_to_do_returns_normally_witness :
    on_post_save_create wC2 envC2 instBase true = ⟨[], .ok instBase⟩ ∧
    on_post_save_update wC2 envC2 instBase false = ⟨[], .ok instBase⟩ ∧
    on_post_delete wC2 envC2 instBase = ⟨[], .ok instBase⟩ :=
  (C9_nothing_to_do_returns_normally wC2 envC2 instBase ["post"]).2.1 rfl rfl rfl
    (by decide)

/-! ## Claim C4 -/

/-- Every record the live-relation cascade emits is a RelatedChange. -/
theorem create_related_all_related_change (w : AuditTrailWatcher) (inst : Instance) :
    ∀ r ∈ create_related_audit_trail w inst, r.kind = .related_change := by
  intro r hr
  unfold create_related_audit_trail at hr
  rw [List.mem_flatMap] at hr
  obtain ⟨f, _, hr⟩ := hr
  cases h : inst.relAttr f <;> rw [h] at hr
  · simp at hr
  · simp at hr
    rw [hr]
  · rw [List.mem_map] at hr
    obtain ⟨i, _, hr⟩ := hr
    rw [← hr]

/-- Every record one severed-relation step emits is a RelatedChange. -/
theorem deleted_cascade_one_all_related_change (env : Env) (inst : Instance)
    (f : String) (recs : List TrailRecord)
    (h : deleted_cascade_one env inst f = .ok recs) :
    ∀ r ∈ recs, r.kind = .related_change := by
  intro r hr
  unfold deleted_cascade_one at h
  cases hrel : inst.relAttr f <;> simp only [hrel] at h
  · injection h with h
    subst h
    simp at hr
  · injection h with h
    subst h
    simp at hr
    rw [hr]
  · cases hsev : inst.severedIds <;> simp only [hsev] at h
    · exact Except.noConfusion h
    · rename_i m
      cases hlk : m.lookup f <;> simp only [hlk] at h
      · injection h with h
        subst h
        simp at hr
      · rename_i ids2
        by_cases hids : ids2.isEmpty = true
        · simp only [if_pos hids] at h
          injection h with h
          subst h
          simp at hr
        · simp only [if_neg hids] at h
          injection h with h
          subst h
          rw [List.mem_map] at hr
          obtain ⟨i, _, hr⟩ := hr
          rw [← hr]

/-- Every record the severed-relation cascade emits is a
RelatedChange. -/
theorem deleted_cascade_all_related_change (env : Env) (inst : Instance) :
    ∀ l, ∀ r ∈ (deleted_cascade_loop env inst l).1, r.kind = .related_change := by
  intro l
  induction l with
  | nil => intro r hr; simp [deleted_cascade_loop] at hr
  | cons f rest ih =>
    intro r hr
    unfold deleted_cascade_loop at hr
    cases hone : deleted_cascade_one env inst f <;> simp only [hone] at hr
    · simp at hr
    · rename_i here
      rcases htail : deleted_cascade_loop env inst rest with ⟨tail, exc⟩
      simp only [htail, List.mem_append] at hr
      rcases hr with hr | hr
      · exact deleted_cascade_one_all_related_change env inst f here hone r hr
      · exact ih r (by rw [htail]; exact hr)

/-- Claim C4: once the disable and parent gates pass, an update whose
computed ChangeSet is empty persists nothing — no record, no cascade,
no before-snapshot refresh — while a creation or deletion persists
exactly one record of kind Created resp. Deleted even when its
ChangeSet `cs` is empty. -/
theorem C4_empty_diff_updates_vs_identity_events (w : AuditTrailWatcher) (env : Env)
    (inst : Instance) (cs cs2 : List (String × Change))
    (hdis : env.disabled = false)
    (hpar : w.track_only_with_related = true → is_parent_object_exists w inst = .ok true) :
    (get_changes w env inst.origValues (serialize_object w env inst) = .ok [] →
       on_post_save_update w env inst false = ⟨[], .ok inst⟩) ∧
    (get_changes w env [] (serialize_object w env inst) = .ok cs →
       (on_post_save_create w env inst true).records.countP
         (fun r => r.kind == .created) = 1) ∧
    (get_changes w env (serialize_object w env inst) [] = .ok cs2 →
       (on_post_delete w env inst).records.countP
         (fun r => r.kind == .deleted) = 1) := by
  have hcasc0 :
      (create_related_audit_trail w inst).countP (fun r => r.kind == EventKind.created) = 0 := by
    rw [List.countP_eq_zero]
    intro r hr
    rw [create_related_all_related_change w inst r hr]
    decide
  refine ⟨?_, ?_, ?_⟩
  · intro hch
    cases htrack : w.track_only_with_related with
    | false => simp [on_post_save_update, hdis, htrack, on_post_save_update_body, hch]
    | true =>
      simp [on_post_save_update, hdis, htrack, hpar htrack, on_post_save_update_body, hch]
  · intro hch
    cases htrack : w.track_only_with_related with
    | false =>
      simp [on_post_save_create, hdis, htrack, on_post_save_create_body, hch,
        List.countP_cons, hcasc0]
      decide
    | true =>
      simp [on_post_save_create, hdis, htrack, hpar htrack, on_post_save_create_body,
        hch, List.countP_cons, hcasc0]
      decide
  · intro hch
    have hdel0 : ∀ casc : List TrailRecord,
        (∀ r ∈ casc, r.kind = EventKind.related_change) →
        List.countP (fun r => r.kind == EventKind.deleted) casc = 0 := by
      intro casc hcasc
      rw [List.countP_eq_zero]
      intro r hr
      rw [hcasc r hr]
      decide
    have hbody : ∀ (casc : List TrailRecord) (exc : Option String),
        create_deleted_related_audit_trail w env inst = (casc, exc) →
        (∀ r ∈ casc, r.kind = EventKind.related_change) := by
      intro casc exc hc r hr
      unfold create_deleted_related_audit_trail at hc
      cases hnr : w.notify_related with
      | none =>
        simp only [hnr] at hc
        cases hc
        simp at hr
      | some l =>
        simp only [hnr] at hc
        by_cases hl : l.isEmpty = true
        · simp only [if_pos hl] at hc
          cases hc
          simp at hr
        · simp only [if_neg hl] at hc
          have := deleted_cascade_all_related_change env inst l r
          rw [hc] at this
          exact this hr
    cases htrack : w.track_only_with_related with
    | false =>
      rcases hcd : create_deleted_related_audit_trail w env inst with ⟨casc, exc⟩
      cases exc <;>
        simp [on_post_delete, hdis, htrack, on_post_delete_body, hch, hcd,
          List.countP_cons, hdel0 casc (hbody casc _ hcd)] <;>
        decide
    | true =>
      rcases hcd : create_deleted_related_audit_trail w env inst with ⟨casc, exc⟩
      cases exc <;>
        simp [on_post_delete, hdis, htrack, hpar htrack, on_post_delete_body, hch, hcd,
          List.countP_cons, hdel0 casc (hbody casc _ hcd)] <;>
        decide

/-- A plain watcher over `metaPlain` (no parent requirement). -/
def wC4 : AuditTrailWatcher :=
  { AuditTrailWatcher.init none none none false none with model_class := some 0 }

/-- An instance whose stored before-snapshot equals its current
serialization (a no-op update). -/
def instC4 : Instance := { instBase with origValues := [("title", some (.vstr "Hi"))] }

theorem C4_empty_diff_updates_vs_identity_events_witness :
    on_post_save_update wC4 envC2 instC4 false = ⟨[], .ok instC4⟩ ∧
    (on_post_save_create wC4 envC2 instC4 true).records.countP
      (fun r => r.kind == .created) = 1 ∧
    (on_post_delete wC4 envC2 instC4).records.countP
      (fun r => r.kind == .deleted) = 1 := by
  have h := C4_empty_diff_updates_vs_identity_events wC4 envC2 instC4
    [("title", ⟨none, some (.vstr "Hi")⟩)] [("title", ⟨some (.vstr "Hi"), none⟩)]
    rfl (fun hx => absurd hx (by decide))
  exact ⟨h.1 rfl, h.2.1 rfl, h.2.2 rfl⟩

/-! ## Claim C10 -/

/-- A snapshot produced by `serialize_object` has no entry for an
excluded field, so reading it yields `None`. -/
theorem serialize_excluded_lookup_none (w : AuditTrailWatcher) (env : Env)
    (inst : Instance) (f : String) (hf : f ∈ w.excluded_fields) :
    sget (serialize_object w env inst) f = none := by
  unfold sget serialize_object
  suffices h : ∀ L : List ModelField,
      List.lookup f (L.filterMap fun fd =>
        if (match w.fields with
            | some fs => decide (fd.name ∉ fs)
            | none => false)
           || w.excluded_fields.contains fd.name then none
        else some (fd.name, inst.fieldValue fd.name)) = none by
    rw [h]
    rfl
  intro L
  induction L with
  | nil => rfl
  | cons fd L ih =>
    rw [List.filterMap_cons]
    cases hb : (match w.fields with
        | some fs => decide (fd.name ∉ fs)
        | none => false)
       || w.excluded_fields.contains fd.name with
    | true =>
      simp only [hb, if_true]
      exact ih
    | false =>
      have hnotex : fd.name ∉ w.excluded_fields := by
        rw [Bool.or_eq_false_iff] at hb
        simpa using hb.2
      have hne : (f == fd.name) = false := by
        rw [beq_eq_false_iff_ne]
        intro hEq
        exact hnotex (hEq ▸ hf)
      simp only [hb, Bool.false_eq_true, if_false]
      rw [List.lookup_cons]
      simp only [hne]
      exact ih

/-- A field that reads as `None` on both sides of the diff renders
identically on both sides, hence never enters the changes dict. -/
theorem get_changes_loop_excluded_not_in (env : Env) (m : Nat) (s1 s2 : Snapshot)
    (f : String) (h1 : sget s1 f = none) (h2 : sget s2 f = none) :
    ∀ (L : List String) (d : List (String × Change)),
      get_changes_loop env m s1 s2 L = .ok d → d.lookup f = none := by
  intro L
  induction L with
  | nil =>
    intro d hd
    injection hd with hd
    subst hd
    rfl
  | cons g rest ih =>
    intro d hd
    unfold get_changes_loop at hd
    cases hov : renderField env m g (sget s1 g) <;> simp only [hov] at hd
    · exact Except.noConfusion hd
    · rename_i ov
      cases hnv : renderField env m g (sget s2 g) <;> simp only [hnv] at hd
      · exact Except.noConfusion hd
      · rename_i nv
        cases htail : get_changes_loop env m s1 s2 rest <;> simp only [htail] at hd
        · exact Except.noConfusion hd
        · rename_i tail
          injection hd with hd
          subst hd
          by_cases hEq : g = f
          · subst hEq
            rw [h1] at hov
            rw [h2] at hnv
            rw [hov] at hnv
            injection hnv with hnv
            rw [if_neg (fun hx => hx hnv)]
            exact ih tail htail
          · have hb : (f == g) = false := by
              rw [beq_eq_false_iff_ne]
              exact fun hh => hEq hh.symm
            by_cases hne : ov ≠ nv
            · rw [if_pos hne]
              rw [List.lookup_cons]
              simp only [hb]
              exact ih tail htail
            · rw [if_neg hne]
              exact ih tail htail

/-- Claim C10: for history records produced by the lifecycle hooks —
whose two diff inputs are each either the empty dict or a
`serialize_object` output — the stored ChangeSet never contains an
excluded field (in particular never `id`), even though the excluded
name may occur in the iterated field list. -/
theorem C10_excluded_field_never_in_changes (w : AuditTrailWatcher) (env : Env)
    (s1 s2 : Snapshot) (d : List (String × Change)) (f : String)
    (hf : f ∈ w.excluded_fields)
    (h1 : s1 = [] ∨ ∃ i : Instance, s1 = serialize_object w env i)
    (h2 : s2 = [] ∨ ∃ i : Instance, s2 = serialize_object w env i)
    (hok : get_changes w env s1 s2 = .ok d) :
    d.lookup f = none := by
  have hs1 : sget s1 f = none := by
    rcases h1 with rfl | ⟨i, rfl⟩
    · rfl
    · exact serialize_excluded_lookup_none w env i f hf
  have hs2 : sget s2 f = none := by
    rcases h2 with rfl | ⟨i, rfl⟩
    · rfl
    · exact serialize_excluded_lookup_none w env i f hf
  unfold get_changes at hok
  cases hm : w.model_class <;> simp only [hm] at hok
  · exact Except.noConfusion hok
  · rename_i m
    exact get_changes_loop_excluded_not_in env m s1 s2 f hs1 hs2 _ d hok

theorem C10_excluded_field_never_in_changes_witness :
    List.lookup "id" [("title", (⟨none, some (.vstr "Hi")⟩ : Change))] = none :=
  C10_excluded_field_never_in_changes wC4 envC2 []
    (serialize_object wC4 envC2 instBase)
    [("title", (⟨none, some (.vstr "Hi")⟩ : Change))] "id"
    (by decide) (Or.inl rfl) (Or.inr ⟨instBase, rfl⟩) rfl

/-! ## Claim C5 -/

/-- When every field of the list renders successfully on both sides,
the diff loop returns normally. -/
theorem get_changes_loop_ok_of_renders_ok (env : Env) (m : Nat) (s1 s2 : Snapshot) :
    ∀ L : List String,
      (∀ f ∈ L, (renderField env m f (sget s1 f)).isOk = true ∧
                (renderField env m f (sget s2 f)).isOk = true) →
      ∃ d, get_changes_loop env m s1 s2 L = .ok d := by
  intro L
  induction L with
  | nil => intro _; exact ⟨[], rfl⟩
  | cons f rest ih =>
    intro h
    obtain ⟨h1, h2⟩ := h f (List.mem_cons_self f rest)
    obtain ⟨tail, htail⟩ := ih fun g hg => h g (List.mem_cons_of_mem f hg)
    cases hov : renderField env m f (sget s1 f) with
    | error e => rw [hov] at h1; simp [Except.isOk, Except.toBool] at h1
    | ok ov =>
      cases hnv : renderField env m f (sget s2 f) with
      | error e => rw [hnv] at h2; simp [Except.isOk, Except.toBool] at h2
      | ok nv =>
        refine ⟨if ov ≠ nv then (f, ⟨ov, nv⟩) :: tail else tail, ?_⟩
        unfold get_changes_loop
        simp only [hov, hnv, htail]

/-- The diff loop yields the empty dict exactly when every listed
field renders identically on both sides (given rendering succeeds). -/
theorem get_changes_loop_empty_iff (env : Env) (m : Nat) (s1 s2 : Snapshot) :
    ∀ L : List String,
      (∀ f ∈ L, (renderField env m f (sget s1 f)).isOk = true ∧
                (renderField env m f (sget s2 f)).isOk = true) →
      (get_changes_loop env m s1 s2 L = .ok [] ↔
        ∀ f ∈ L, renderField env m f (sget s1 f) = renderField env m f (sget s2 f)) := by
  intro L
  induction L with
  | nil => intro _; simp [get_changes_loop]
  | cons f rest ih =>
    intro h
    obtain ⟨h1, h2⟩ := h f (List.mem_cons_self f rest)
    have hrest := fun g hg => h g (List.mem_cons_of_mem f hg)
    obtain ⟨tail, htail⟩ := get_changes_loop_ok_of_renders_ok env m s1 s2 rest hrest
    have ihr := ih hrest
    rw [htail] at ihr
    simp only [Except.ok.injEq] at ihr
    cases hov : renderField env m f (sget s1 f) with
    | error e => rw [hov] at h1; simp [Except.isOk, Except.toBool] at h1
    | ok ov =>
      cases hnv : renderField env m f (sget s2 f) with
      | error e => rw [hnv] at h2; simp [Except.isOk, Except.toBool] at h2
      | ok nv =>
        unfold get_changes_loop
        simp only [hov, hnv, htail]
        by_cases hEq : ov = nv
        · subst hEq
          rw [if_neg fun hx => hx rfl]
          rw [List.forall_mem_cons]
          simp only [Except.ok.injEq]
          rw [hov, hnv]
          simp only [true_and]
          exact ihr
        · rw [if_pos hEq]
          constructor
          · intro hok
            simp at hok
          · intro hall
            have hfst := hall f (List.mem_cons_self f rest)
            rw [hov, hnv] at hfst
            injection hfst with hfst
            exact absurd hfst hEq

/-- A snapshot holding a dangling foreign-key reference. -/
def sC5 : Snapshot := [("author", some (.vint 7))]

/-- Claim C5 fails on the code: for the snapshot `sC5`, whose `author`
reference no longer resolves, every field trivially renders
identically on both sides (the two sides are the same snapshot), yet
`diff(S, S, F)` is not the empty changes dict — the diff raises
`DoesNotExist` instead of returning at all. -/
theorem C5_counterexample :
    (∀ f ∈ effective_fields wC1 envC1 0,
       renderField envC1 0 f (sget sC5 f) = renderField envC1 0 f (sget sC5 f)) ∧
    get_changes wC1 envC1 sC5 sC5 ≠ .ok [] := by
  constructor
  · intro f _
    rfl
  · intro h
    rw [show get_changes wC1 envC1 sC5 sC5 = .error "DoesNotExist" from rfl] at h
    exact Except.noConfusion h

/-- Claim C5 (amended): restricted to snapshots whose fields all
render successfully (no dangling reference and no malformed raw
value), `diff(S1, S2, F)` is empty iff every field of `F` renders
identically in `S1` and `S2` (a missing key reading as null), and in
particular `diff(S, S, F)` is empty; when a rendering fails the diff
raises instead of returning a result. -/
theorem C5_diff_empty_iff_identical_renders (w : AuditTrailWatcher) (env : Env)
    (m : Nat) (s1 s2 : Snapshot)
    (hm : w.model_class = some m)
    (h1 : ∀ f ∈ effective_fields w env m, (renderField env m f (sget s1 f)).isOk = true)
    (h2 : ∀ f ∈ effective_fields w env m, (renderField env m f (sget s2 f)).isOk = true) :
    (get_changes w env s1 s2 = .ok [] ↔
      ∀ f ∈ effective_fields w env m,
        renderField env m f (sget s1 f) = renderField env m f (sget s2 f)) ∧
    (s1 = s2 → get_changes w env s1 s2 = .ok []) := by
  have hiff := get_changes_loop_empty_iff env m s1 s2 (effective_fields w env m)
    fun f hf => ⟨h1 f hf, h2 f hf⟩
  constructor
  · unfold get_changes
    simp only [hm]
    exact hiff
  · rintro rfl
    unfold get_changes
    simp only [hm]
    exact hiff.mpr fun f hf => rfl

/-- An environment in which the `author` reference with id 7
resolves. -/
def envC5 : Env :=
  { disabled := false
    metaFields := fun _ => metaPost
    fkLookup := fun f n => if f == "author" && n == 7 then some "Bob" else none
    db := fun _ => true }

/-- A snapshot whose fields all render successfully. -/
def sC5ok : Snapshot :=
  [("title", some (.vstr "a")), ("status", some (.vint 1)), ("author", some (.vint 7))]

theorem C5_diff_empty_iff_identical_renders_witness :
    get_changes wC1 envC5 sC5ok sC5ok = .ok [] :=
  (C5_diff_empty_iff_identical_renders wC1 envC5 0 sC5ok sC5ok rfl
    (by decide) (by decide)).2 rfl

/-! ## Claim C3 -/

/-- The pre-delete capture contains exactly the non-empty
collection-valued notify relations with their member ids. -/
theorem capture_severed_mem (inst : Instance) :
    ∀ (l : List String) (f : String) (ids : List Int),
      (f, ids) ∈ capture_severed inst l ↔
        f ∈ l ∧ inst.relAttr f = .manager ids ∧ ids ≠ [] := by
  intro l
  induction l with
  | nil => intro f ids; simp [capture_severed]
  | cons g rest ih =>
    intro f ids
    unfold capture_severed
    cases hrel : inst.relAttr g with
    | null =>
      simp only [hrel]
      rw [ih f ids, List.mem_cons]
      constructor
      · rintro ⟨hm, hp, hne⟩
        exact ⟨Or.inr hm, hp, hne⟩
      · rintro ⟨hg | hm, hp, hne⟩
        · subst hg
          rw [hrel] at hp
          exact RelValue.noConfusion hp
        · exact ⟨hm, hp, hne⟩
    | obj i =>
      simp only [hrel]
      rw [ih f ids, List.mem_cons]
      constructor
      · rintro ⟨hm, hp, hne⟩
        exact ⟨Or.inr hm, hp, hne⟩
      · rintro ⟨hg | hm, hp, hne⟩
        · subst hg
          rw [hrel] at hp
          exact RelValue.noConfusion hp
        · exact ⟨hm, hp, hne⟩
    | manager mids =>
      simp only [hrel]
      by_cases hids : mids.isEmpty = true
      · rw [if_pos hids]
        have hmids : mids = [] := by simpa using hids
        rw [ih f ids, List.mem_cons]
        constructor
        · rintro ⟨hm, hp, hne⟩
          exact ⟨Or.inr hm, hp, hne⟩
        · rintro ⟨hg | hm, hp, hne⟩
          · subst hg
            rw [hrel] at hp
            injection hp with hp
            rw [hmids] at hp
            exact absurd hp.symm hne
          · exact ⟨hm, hp, hne⟩
      · rw [if_neg hids]
        rw [List.mem_cons, ih f ids, List.mem_cons]
        constructor
        · rintro (hpair | ⟨hm, hp, hne⟩)
          · rw [Prod.mk.injEq] at hpair
            obtain ⟨h1, h2⟩ := hpair
            subst h1
            subst h2
            refine ⟨Or.inl rfl, hrel, ?_⟩
            intro hnil
            rw [hnil] at hids
            simp at hids
          · exact ⟨Or.inr hm, hp, hne⟩
        · rintro ⟨hg | hm, hp, hne⟩
          · subst hg
            rw [hrel] at hp
            injection hp with hp
            subst hp
            exact Or.inl rfl
          · exact Or.inr ⟨hm, hp, hne⟩

/-- Claim C3: with notify relations configured, the pre-delete hook
stores the severed capture (whose entries are exactly the non-empty
collection relations with their member ids) on the instance; then, for
a single collection notify relation `f` whose live accessor is empty
after the delete, the post-delete hook emits one Deleted record
followed by exactly one RelatedChange record per captured id, each
linked to the Deleted record (batch index 0), re-querying the captured
ids instead of the live relation. -/
theorem C3_pre_delete_capture_post_delete_notify (w : AuditTrailWatcher)
    (env : Env) (inst : Instance) (l : List String) (f : String) (ids : List Int)
    (g : String → RelValue) (cs : List (String × Change))
    (hdis : env.disabled = false)
    (hnr : w.notify_related = some l) (hl : l ≠ []) :
    (on_pre_delete w env inst =
       ⟨[], .ok { inst with severedIds := some (capture_severed inst l) }⟩) ∧
    (∀ (f2 : String) (ids2 : List Int),
       (f2, ids2) ∈ capture_severed inst l ↔
         f2 ∈ l ∧ inst.relAttr f2 = .manager ids2 ∧ ids2 ≠ []) ∧
    (l = [f] → inst.relAttr f = .manager ids → ids ≠ [] →
     g f = .manager [] → (∀ i ∈ ids, env.db i = true) →
     w.track_only_with_related = false →
     get_changes w env (serialize_object w env inst) [] = .ok cs →
     on_post_delete w env
         { inst with severedIds := some (capture_severed inst l), relAttr := g } =
       ⟨⟨.deleted, inst.myId, cs, none⟩ ::
          ids.map (fun i => ⟨.related_change, i, [], some 0⟩),
        .ok { inst with severedIds := some (capture_severed inst l), relAttr := g }⟩) := by
  refine ⟨?_, capture_severed_mem inst l, ?_⟩
  · unfold on_pre_delete
    simp only [hdis, Bool.false_eq_true, if_false, hnr]
    rw [if_neg (show ¬(l.isEmpty = true) by simp [hl])]
  · intro hlf hrelf hne hgf hdb htrack hch
    subst hlf
    have hcap : capture_severed inst [f] = [(f, ids)] := by
      unfold capture_severed
      simp only [hrelf]
      rw [if_neg (show ¬(ids.isEmpty = true) by simp [hne])]
      rfl
    rw [hcap]
    have hser : serialize_object w env
        { inst with severedIds := some [(f, ids)], relAttr := g } =
        serialize_object w env inst := rfl
    have hfilter : ids.filter (fun i => env.db i) = ids :=
      List.filter_eq_self.mpr fun a ha => hdb a ha
    have hone : deleted_cascade_one env
        { inst with severedIds := some [(f, ids)], relAttr := g } f =
        .ok (ids.map fun i => ⟨.related_change, i, [], some 0⟩) := by
      unfold deleted_cascade_one
      simp only [hgf, List.lookup_cons, beq_self_eq_true]
      rw [if_neg (show ¬(ids.isEmpty = true) by simp [hne])]
      rw [hfilter]
    unfold on_post_delete
    simp only [hdis, htrack]
    unfold on_post_delete_body
    rw [hser]
    simp only [hch]
    unfold create_deleted_related_audit_trail
    simp only [hnr]
    unfold deleted_cascade_loop
    simp only [hone, deleted_cascade_loop, List.append_nil]
    rfl

/-- A watcher for a Post-like model whose notify relation is its
`comment_set` collection. -/
def wC3 : AuditTrailWatcher :=
  { AuditTrailWatcher.init none none (some ["comment_set"]) false none with
    model_class := some 0 }

/-- A Post instance with three live comments before deletion. -/
def instC3 : Instance :=
  { instBase with
    relAttr := fun s => if s == "comment_set" then .manager [1, 2, 3] else .null }

/-- The relation accessors as they read after the delete: the live
collection enumerates nothing. -/
def gC3 : String → RelValue := fun _ => .manager []

theorem C3_pre_delete_capture_post_delete_notify_witness :
    (on_pre_delete wC3 envC2 instC3 =
       ⟨[], .ok { instC3 with
                  severedIds := some (capture_severed instC3 ["comment_set"]) }⟩) ∧
    on_post_delete wC3 envC2
        { instC3 with
          severedIds := some (capture_severed instC3 ["comment_set"]),
          relAttr := gC3 } =
      ⟨⟨.deleted, instC3.myId, [("title", ⟨some (.vstr "Hi"), none⟩)], none⟩ ::
         [1, 2, 3].map (fun i => ⟨.related_change, i, [], some 0⟩),
       .ok { instC3 with
             severedIds := some (capture_severed instC3 ["comment_set"]),
             relAttr := gC3 }⟩ := by
  have h := C3_pre_delete_capture_post_delete_notify wC3 envC2 instC3 ["comment_set"]
    "comment_set" [1, 2, 3] gC3 [("title", ⟨some (.vstr "Hi"), none⟩)]
    rfl rfl (by decide)
  exact ⟨h.1, h.2.2 rfl (by decide) (by decide) rfl (by decide) rfl rfl⟩

/-! ## Claim C6 -/

/-- `set_audit` leaves an association list without the key
untouched. -/
theorem set_audit_of_lookup_none (cls : Nat) (w : AuditTrailWatcher)
    (l : List (Nat × AuditTrailWatcher)) (h : l.lookup cls = none) :
    set_audit cls w l = l := by
  induction l with
  | nil => rfl
  | cons p t ih =>
    obtain ⟨k, b⟩ := p
    rw [List.lookup_cons] at h
    cases hb : (cls == k) with
    | true =>
      simp only [hb] at h
      exact Option.noConfusion h
    | false =>
      simp only [hb] at h
      have hkc : (k == cls) = false := by
        rw [beq_eq_false_iff_ne] at hb ⊢
        exact fun hh => hb hh.symm
      unfold set_audit
      simp only [List.map_cons, hkc, Bool.false_eq_true, if_false]
      rw [show (List.map (fun p => if p.1 == cls then (p.1, w) else p) t) = set_audit cls w t
        from rfl]
      rw [ih h]

/-- `set_audit` on a list headed by the key updates the head. -/
theorem set_audit_cons_self (cls : Nat) (w b : AuditTrailWatcher)
    (t : List (Nat × AuditTrailWatcher)) :
    set_audit cls w ((cls, b) :: t) = (cls, w) :: set_audit cls w t := by
  unfold set_audit
  simp [List.map_cons]

/-- Folding the per-relation step over a single relation name is just
that step. -/
theorem foldlM_single_relation (g : RegState → String → Except String RegState)
    (s : RegState) (a : String) : List.foldlM g s [a] = g s a := by
  cases h : g s a <;> simp [List.foldlM, h]

/-- Claim C6: resolving a forward many-to-one cascade relation infers
the back-reference name (the relation's query name, with `'_set'`
appended when the related model lacks an attribute of that name); if
the related model has no policy yet a shadow watcher — parent-required,
no own tracked-field list — is registered and wired immediately; and
the inferred name is appended to (never overwrites) the related
watcher's `notify_related`. -/
theorem C6_forward_fk_relation_resolution (e : RegEnv) (st : RegState)
    (w : AuditTrailWatcher) (mc rm : Nat) (f qn : String)
    (hmc : w.model_class = some mc)
    (htr : w.track_related = some [f])
    (hattr : e.attrOf mc f = some (.fkDescr rm qn)) :
    (st.audits.lookup rm = none → rm ∉ st.tracked_models →
       init_related_signals w e st = .ok
         { tracked_models := rm :: st.tracked_models,
           audits := (rm,
             { fields := none, track_related := none,
               notify_related := some [if e.hasattrM rm qn then qn else qn ++ "_set"],
               track_only_with_related := true,
               excluded_fields := ["id"],
               model_class := some rm }) :: st.audits,
           wired := rm :: st.wired }) ∧
    (∀ aw : AuditTrailWatcher, st.audits.lookup rm = some aw →
       init_related_signals w e st = .ok
         { st with audits := (set_audit rm
             ({ aw with notify_related := some (aw.notify_related.getD [] ++
                 [if e.hasattrM rm qn then qn else qn ++ "_set"]) })
             st.audits) }) := by
  constructor
  · intro hlk htrk
    have hcontains : st.tracked_models.contains rm = false := by
      simp [htrk]
    unfold init_related_signals
    simp only [htr, hmc]
    rw [if_neg (show ¬(([f] : List String).isEmpty = true) by simp)]
    rw [foldlM_single_relation]
    unfold init_related_one
    simp only [hattr, hlk, Option.isSome_none, Bool.false_eq_true, if_false,
      contribute_to_class, hcontains, AuditTrailWatcher.init]
    simp only [List.lookup_cons, beq_self_eq_true]
    rw [set_audit_cons_self, set_audit_of_lookup_none rm _ st.audits hlk]
    rfl
  · intro aw hlk
    unfold init_related_signals
    simp only [htr, hmc]
    rw [if_neg (show ¬(([f] : List String).isEmpty = true) by simp)]
    rw [foldlM_single_relation]
    unfold init_related_one
    simp only [hattr, hlk, Option.isSome_some, if_true]

/-- Introspection for the witness: model `0` (Comment) has a forward
FK attribute `post` to model `1` (Post), whose query name is
`comment`, and Post has no `comment` attribute. -/
def eC6 : RegEnv :=
  { attrOf := fun m a =>
      if m == 0 && a == "post" then some (.fkDescr 1 "comment") else none
    hasattrM := fun _ _ => false }

/-- A Comment watcher cascading into `post`. -/
def wC6 : AuditTrailWatcher :=
  { AuditTrailWatcher.init none (some ["post"]) none false none with
    model_class := some 0 }

/-- Registry before resolution: only Comment registered. -/
def stC6a : RegState :=
  { tracked_models := [0], audits := [(0, wC6)], wired := [0] }

/-- The shadow watcher the resolution must create for Post. -/
def shadowC6 : AuditTrailWatcher :=
  { fields := none, track_related := none, notify_related := some ["comment_set"]
    track_only_with_related := true, excluded_fields := ["id"], model_class := some 1 }

/-- A pre-existing Post watcher with one notify relation already. -/
def awC6 : AuditTrailWatcher :=
  { AuditTrailWatcher.init none none (some ["x"]) true none with model_class := some 1 }

/-- Registry where Post already has a policy. -/
def stC6b : RegState :=
  { tracked_models := [0, 1], audits := [(0, wC6), (1, awC6)], wired := [0, 1] }

theorem C6_forward_fk_relation_resolution_witness :
    init_related_signals wC6 eC6 stC6a = .ok
      { tracked_models := [1, 0], audits := [(1, shadowC6), (0, wC6)],
        wired := [1, 0] } ∧
    init_related_signals wC6 eC6 stC6b = .ok
      { stC6b with
        audits := [(0, wC6),
          (1, { awC6 with notify_related := some ["x", "comment_set"] })] } :=
  ⟨(C6_forward_fk_relation_resolution eC6 stC6a wC6 0 1 "post" "comment"
      rfl rfl rfl).1 rfl (by decide),
   (C6_forward_fk_relation_resolution eC6 stC6b wC6 0 1 "post" "comment"
      rfl rfl rfl).2 awC6 rfl⟩
